import Mathlib

/-!
# Transaction confirmation monitor: shallow embedding

A shallow embedding of `eth_hentai/txmonitor.py`: the confirmation monitor
`wait_transactions_to_complete` and the broadcast wrapper
`broadcast_and_wait_transactions_to_complete`.

The `web3` port is modelled as an environment: a chain identity, the wall
clock at call start, and for each poll round the chain state the port reports
(per-transaction receipt lookup, chain head, clock after the round's sleep,
and the best-effort diagnostic transaction lookup).  The unbounded `while`
loop is run on fuel; exhausting the fuel yields a distinguished
`outOfFuel` outcome meaning "the loop is still running".  Besides the
outcome, runs report how many `time.sleep` calls were performed.
-/

namespace TxMonitor

/-- A transaction identifier: an opaque byte string (`HexBytes` in the
source), compared by byte value. -/
abbrev TxId := List Nat

/-- A transaction receipt as returned by `web3.eth.get_transaction_receipt`.
Only the fields the monitor reads are modelled: `blockNumber` (inclusion
height) and `status` (1 = success); provider-specific auxiliary fields are
passed through unread and are not modelled. -/
structure Receipt where
  blockNumber : Int
  status : Int
  deriving Repr, DecidableEq

/-- Outcome of one `web3.eth.get_transaction_receipt` call: a receipt, the
`TransactionNotFound` exception (which the code catches and treats as "no
receipt yet"), or any other port failure (which propagates). -/
inductive ReceiptResult where
  | found (r : Receipt)
  | notFound
  | portError
  deriving Repr, DecidableEq

/-- The chain state the port reports during one poll round:
`getReceipt` models `web3.eth.get_transaction_receipt`, `blockNumber` the
`web3.eth.block_number` head reported for each query (the source reads the
head once per examined transaction, inside the loop), `nowAfterSleep` the
`datetime.datetime.utcnow()` value observed right after this round's sleep,
and `getTransaction` the best-effort `web3.eth.get_transaction` diagnostic
lookup (`none` models a call that raises). -/
structure Round where
  getReceipt : TxId → ReceiptResult
  blockNumber : TxId → Int
  nowAfterSleep : Int
  getTransaction : TxId → Option Nat

/-- The `web3` port over a whole call: chain identity (`web3.eth.chain_id`),
the clock at call start (`datetime.datetime.utcnow()`), the chain state of
each poll round, and raw transaction submission
(`web3.eth.send_raw_transaction`). -/
structure Web3Env where
  chainId : Int
  startedAt : Int
  rounds : Nat → Round
  sendRawTransaction : List Nat → TxId

/-- Errors a monitoring call can surface. -/
inductive MonitorError where
  /-- The `assert confirmation_block_count == 0` guard for chain id 61
  (Ethereum Tester) fails. -/
  | assertionError
  /-- `web3.eth.get_transaction_receipt` raised something other than
  `TransactionNotFound`; nothing catches it. -/
  | portUnavailable
  /-- `ConfirmationTimedOut`, carrying the still-unconfirmed identifiers. -/
  | confirmationTimedOut (unconfirmed : List TxId)
  /-- `web3.eth.get_transaction` raised during timeout reporting; nothing
  catches it, so it propagates in place of `ConfirmationTimedOut`. -/
  | diagnosticError (txHash : TxId)
  deriving Repr, DecidableEq

/-- Result of a monitoring call. -/
inductive MonitorOutcome where
  | ok (receipts : List (TxId × Receipt))
  | err (e : MonitorError)
  /-- The fuel bound was reached with the loop still running. -/
  | outOfFuel
  deriving Repr, DecidableEq

/-- One round's pass over the watch set (lines 73-88 of the source): for each
identifier look up the receipt; `TransactionNotFound` means "skip"; any other
port failure aborts the whole call; a receipt whose confirmation count
`block_number - receipt.blockNumber` reaches `confirmation_block_count` is
collected for promotion together with its receipt. -/
def processRound (round : Round) (cbc : Int) : List TxId → Except Unit (List (TxId × Receipt))
  | [] => .ok []
  | tx :: rest =>
    match round.getReceipt tx with
    | .portError => .error ()
    | .notFound => processRound round cbc rest
    | .found r =>
      if cbc ≤ round.blockNumber tx - r.blockNumber then
        (processRound round cbc rest).map fun confirmed => (tx, r) :: confirmed
      else
        processRound round cbc rest

/-- Timeout reporting (lines 96-100 of the source): fetch diagnostic
transaction data for every identifier still in the watch set, then raise
`ConfirmationTimedOut`.  `web3.eth.get_transaction` is not guarded by any
handler, so the first lookup that raises aborts with that error instead. -/
def reportTimeout (round : Round) (watch : List TxId) : MonitorError :=
  match watch.find? (fun tx => (round.getTransaction tx).isNone) with
  | some tx => .diagnosticError tx
  | none => .confirmationTimedOut watch

/-- The poll loop of `wait_transactions_to_complete` (lines 68-101): while the
watch set is non-empty, run one round's pass, remove the promoted identifiers
from the watch set and append their receipts to the result map; if the watch
set is still non-empty, sleep, then compare the clock against the deadline;
on timeout run the diagnostic pass and fail.  `fuel` bounds the number of
iterations of the unbounded source loop; the second component of the result
counts the `time.sleep` calls performed. -/
def waitLoop (rounds : Nat → Round) (startedAt cbc maxTimeout : Int) :
    Nat → Nat → List TxId → List (TxId × Receipt) → MonitorOutcome × Nat
  | 0, _, watch, received =>
    if watch.isEmpty then (.ok received, 0) else (.outOfFuel, 0)
  | fuel + 1, i, watch, received =>
    if watch.isEmpty then (.ok received, 0)
    else
      match processRound (rounds i) cbc watch with
      | .error _ => (.err .portUnavailable, 0)
      | .ok confirmed =>
        let residual := watch.filter fun tx => decide (tx ∉ confirmed.map Prod.fst)
        let stored := received ++ confirmed
        if residual.isEmpty then
          waitLoop rounds startedAt cbc maxTimeout fuel (i + 1) residual stored
        else if startedAt + maxTimeout < (rounds i).nowAfterSleep then
          (.err (reportTimeout (rounds i) residual), 1)
        else
          let rest := waitLoop rounds startedAt cbc maxTimeout fuel (i + 1) residual stored
          (rest.1, rest.2 + 1)

/-- `wait_transactions_to_complete` (lines 21-102 of the source): guard the
Ethereum Tester chain id 61 with `assert confirmation_block_count == 0`,
deduplicate the input identifiers by byte value into the initial watch set,
and run the poll loop with an empty result map. -/
def wait_transactions_to_complete (env : Web3Env) (txs : List TxId)
    (confirmation_block_count maxTimeout : Int) (fuel : Nat) :
    MonitorOutcome × Nat :=
  if env.chainId = 61 ∧ confirmation_block_count ≠ 0 then
    (.err .assertionError, 0)
  else
    waitLoop env.rounds env.startedAt confirmation_block_count maxTimeout fuel 0
      txs.dedup []

/-- The per-round promotion test of the source (lines 81-86), as a predicate:
a receipt is present and its confirmation count
`block_number - receipt.blockNumber` reaches `confirmation_block_count`. -/
def confirmedNow (round : Round) (cbc : Int) (tx : TxId) : Bool :=
  match round.getReceipt tx with
  | .found r => decide (cbc ≤ round.blockNumber tx - r.blockNumber)
  | _ => false

/-- A signed transaction (`eth_account` `SignedTransaction`): only its
`rawTransaction` bytes are read. -/
structure SignedTx where
  rawTransaction : List Nat
  deriving Repr, DecidableEq

/-- An element of the input list of
`broadcast_and_wait_transactions_to_complete`: either an actual
`SignedTransaction`, or a value of some other type, which the
`assert isinstance(tx, SignedTransaction)` check rejects. -/
inductive TxItem where
  | signed (s : SignedTx)
  | invalid
  deriving Repr, DecidableEq

/-- Result of the broadcast loop. -/
inductive BroadcastResult where
  | ok (hashes : List TxId)
  /-- `assert isinstance(...)` failed; carries the hashes already submitted. -/
  | assertionFailed (submitted : List TxId)
  deriving Repr, DecidableEq

/-- The broadcast loop (lines 126-130 of the source): for each element in
input order, check `isinstance`, then submit via
`web3.eth.send_raw_transaction`, accumulating the returned hashes; an invalid
element aborts with the assertion error, the earlier submissions standing. -/
def broadcastTxs (env : Web3Env) : List TxItem → List TxId → BroadcastResult
  | [], acc => .ok acc
  | .invalid :: _, acc => .assertionFailed acc
  | .signed s :: rest, acc =>
    broadcastTxs env rest (acc ++ [env.sendRawTransaction s.rawTransaction])

/-- The `confirm_ok` scan (lines 135-138 of the source): the first receipt in
iteration order whose `status` is not 1, if any. -/
def firstFailedReceipt : List (TxId × Receipt) → Option (TxId × Receipt)
  | [] => none
  | (tx, r) :: rest => if r.status ≠ 1 then some (tx, r) else firstFailedReceipt rest

/-- Result of `broadcast_and_wait_transactions_to_complete`. -/
inductive BroadcastWaitOutcome where
  | ok (receipts : List (TxId × Receipt))
  /-- `assert isinstance(...)` failed; carries the hashes already submitted. -/
  | assertionError (submitted : List TxId)
  /-- The monitoring call failed. -/
  | monitorFailed (e : MonitorError)
  /-- `confirm_ok` found a receipt with `status != 1`:
  `RuntimeError(f"Transaction ... failed ...")`. -/
  | transactionFailed (txHash : TxId) (receipt : Receipt)
  | outOfFuel
  deriving Repr, DecidableEq

/-- `broadcast_and_wait_transactions_to_complete` (lines 105-140 of the
source): broadcast all transactions in input order, delegate the hash list to
`wait_transactions_to_complete`, and with `confirm_ok` set fail on the first
receipt reporting a status other than 1. -/
def broadcast_and_wait_transactions_to_complete (env : Web3Env)
    (txs : List TxItem) (confirm_ok : Bool)
    (confirmation_block_count maxTimeout : Int) (fuel : Nat) :
    BroadcastWaitOutcome :=
  match broadcastTxs env txs [] with
  | .assertionFailed submitted => .assertionError submitted
  | .ok hashes =>
    match wait_transactions_to_complete env hashes confirmation_block_count
        maxTimeout fuel with
    | (.err e, _) => .monitorFailed e
    | (.outOfFuel, _) => .outOfFuel
    | (.ok receipts, _) =>
      if confirm_ok then
        match firstFailedReceipt receipts with
        | some (tx, r) => .transactionFailed tx r
        | none => .ok receipts
      else
        .ok receipts

/-! ## Unfolding lemmas -/

theorem except_map_error {α β : Type} (f : α → β) :
    (Except.error () : Except Unit α).map f = .error () := rfl

theorem except_map_ok {α β : Type} (f : α → β) (a : α) :
    (Except.ok a : Except Unit α).map f = .ok (f a) := rfl

theorem processRound_nil (round : Round) (cbc : Int) :
    processRound round cbc [] = .ok [] := rfl

theorem processRound_cons (round : Round) (cbc : Int) (tx : TxId)
    (rest : List TxId) :
    processRound round cbc (tx :: rest) =
      match round.getReceipt tx with
      | .portError => .error ()
      | .notFound => processRound round cbc rest
      | .found r =>
        if cbc ≤ round.blockNumber tx - r.blockNumber then
          (processRound round cbc rest).map fun confirmed => (tx, r) :: confirmed
        else processRound round cbc rest := by
  conv_lhs => simp only [processRound]

theorem processRound_cons_portError (round : Round) (cbc : Int) (tx : TxId)
    (rest : List TxId) (h : round.getReceipt tx = .portError) :
    processRound round cbc (tx :: rest) = .error () := by
  rw [processRound_cons, h]

theorem processRound_cons_notFound (round : Round) (cbc : Int) (tx : TxId)
    (rest : List TxId) (h : round.getReceipt tx = .notFound) :
    processRound round cbc (tx :: rest) = processRound round cbc rest := by
  rw [processRound_cons, h]

theorem processRound_cons_found (round : Round) (cbc : Int) (tx : TxId)
    (rest : List TxId) (r : Receipt) (h : round.getReceipt tx = .found r) :
    processRound round cbc (tx :: rest) =
      if cbc ≤ round.blockNumber tx - r.blockNumber then
        (processRound round cbc rest).map fun confirmed => (tx, r) :: confirmed
      else processRound round cbc rest := by
  rw [processRound_cons, h]

/-! ## Characterization of one round's pass -/

/-- A round's pass aborts exactly when some watched identifier hits a genuine
port failure (an exception other than `TransactionNotFound`). -/
theorem processRound_error_iff (round : Round) (cbc : Int) :
    ∀ watch : List TxId,
      processRound round cbc watch = .error () ↔
        ∃ tx ∈ watch, round.getReceipt tx = .portError := by
  intro watch
  induction watch with
  | nil => simp [processRound_nil]
  | cons tx rest ih =>
    cases hr : round.getReceipt tx with
    | portError =>
      rw [processRound_cons_portError round cbc tx rest hr]
      exact iff_of_true rfl ⟨tx, List.mem_cons_self tx rest, hr⟩
    | notFound =>
      rw [processRound_cons_notFound round cbc tx rest hr, ih]
      constructor
      · rintro ⟨t, ht, hpe⟩
        exact ⟨t, List.mem_cons_of_mem _ ht, hpe⟩
      · rintro ⟨t, ht, hpe⟩
        rcases List.mem_cons.mp ht with rfl | ht'
        · rw [hr] at hpe; cases hpe
        · exact ⟨t, ht', hpe⟩
    | found r =>
      rw [processRound_cons_found round cbc tx rest r hr]
      have hmemiff : (∃ t ∈ tx :: rest, round.getReceipt t = .portError) ↔
          ∃ t ∈ rest, round.getReceipt t = .portError := by
        constructor
        · rintro ⟨t, ht, hpe⟩
          rcases List.mem_cons.mp ht with rfl | ht'
          · rw [hr] at hpe; cases hpe
          · exact ⟨t, ht', hpe⟩
        · rintro ⟨t, ht, hpe⟩
          exact ⟨t, List.mem_cons_of_mem _ ht, hpe⟩
      by_cases hd : cbc ≤ round.blockNumber tx - r.blockNumber
      · rw [if_pos hd, hmemiff, ← ih]
        cases hrest : processRound round cbc rest with
        | error u =>
          cases u
          rw [except_map_error]
        | ok c =>
          rw [except_map_ok]
          constructor
          · intro h; cases h
          · intro h; cases h
      · rw [if_neg hd, hmemiff, ← ih]

/-- Membership in the promoted list: an identifier is promoted with receipt
`r` exactly when it is watched, the port reports `r` for it, and `r` is deep
enough. -/
theorem processRound_mem (round : Round) (cbc : Int) :
    ∀ (watch : List TxId) (confirmed : List (TxId × Receipt)),
      processRound round cbc watch = .ok confirmed →
      ∀ (tx : TxId) (r : Receipt),
        ((tx, r) ∈ confirmed ↔
          tx ∈ watch ∧ round.getReceipt tx = .found r ∧
            cbc ≤ round.blockNumber tx - r.blockNumber) := by
  intro watch
  induction watch with
  | nil =>
    intro confirmed hok tx r
    rw [processRound_nil] at hok
    cases hok
    simp
  | cons tx0 rest ih =>
    intro confirmed hok tx r
    cases hr : round.getReceipt tx0 with
    | portError =>
      rw [processRound_cons_portError round cbc tx0 rest hr] at hok; cases hok
    | notFound =>
      rw [processRound_cons_notFound round cbc tx0 rest hr] at hok
      rw [ih confirmed hok tx r]
      constructor
      · rintro ⟨h1, h2, h3⟩
        exact ⟨List.mem_cons_of_mem _ h1, h2, h3⟩
      · rintro ⟨h1, h2, h3⟩
        rcases List.mem_cons.mp h1 with rfl | h1'
        · rw [hr] at h2; cases h2
        · exact ⟨h1', h2, h3⟩
    | found r0 =>
      rw [processRound_cons_found round cbc tx0 rest r0 hr] at hok
      by_cases hd : cbc ≤ round.blockNumber tx0 - r0.blockNumber
      · rw [if_pos hd] at hok
        cases hrest : processRound round cbc rest with
        | error u => rw [hrest, except_map_error] at hok; cases hok
        | ok c =>
          rw [hrest, except_map_ok] at hok
          cases hok
          rw [List.mem_cons, ih c hrest tx r]
          constructor
          · rintro (h | ⟨h1, h2, h3⟩)
            · rw [Prod.mk.injEq] at h
              obtain ⟨rfl, rfl⟩ := h
              exact ⟨List.mem_cons_self _ _, hr, hd⟩
            · exact ⟨List.mem_cons_of_mem _ h1, h2, h3⟩
          · rintro ⟨h1, h2, h3⟩
            rcases List.mem_cons.mp h1 with rfl | h1'
            · rw [hr] at h2
              obtain rfl := (ReceiptResult.found.injEq _ _).mp h2.symm
              exact Or.inl rfl
            · exact Or.inr ⟨h1', h2, h3⟩
      · rw [if_neg hd] at hok
        rw [ih confirmed hok tx r]
        constructor
        · rintro ⟨h1, h2, h3⟩
          exact ⟨List.mem_cons_of_mem _ h1, h2, h3⟩
        · rintro ⟨h1, h2, h3⟩
          rcases List.mem_cons.mp h1 with rfl | h1'
          · rw [hr] at h2
            obtain rfl := (ReceiptResult.found.injEq _ _).mp h2.symm
            exact absurd h3 hd
          · exact ⟨h1', h2, h3⟩

/-- The promoted identifiers of a round are exactly the watched identifiers
passing the promotion test, in watch order. -/
theorem processRound_keys (round : Round) (cbc : Int) :
    ∀ (watch : List TxId) (confirmed : List (TxId × Receipt)),
      processRound round cbc watch = .ok confirmed →
      confirmed.map Prod.fst = watch.filter (confirmedNow round cbc) := by
  intro watch
  induction watch with
  | nil =>
    intro confirmed hok
    rw [processRound_nil] at hok
    cases hok
    simp
  | cons tx0 rest ih =>
    intro confirmed hok
    cases hr : round.getReceipt tx0 with
    | portError =>
      rw [processRound_cons_portError round cbc tx0 rest hr] at hok; cases hok
    | notFound =>
      rw [processRound_cons_notFound round cbc tx0 rest hr] at hok
      rw [List.filter_cons, ih confirmed hok]
      simp [confirmedNow, hr]
    | found r0 =>
      rw [processRound_cons_found round cbc tx0 rest r0 hr] at hok
      by_cases hd : cbc ≤ round.blockNumber tx0 - r0.blockNumber
      · rw [if_pos hd] at hok
        cases hrest : processRound round cbc rest with
        | error u => rw [hrest, except_map_error] at hok; cases hok
        | ok c =>
          rw [hrest, except_map_ok] at hok
          cases hok
          rw [List.filter_cons]
          have hcn : confirmedNow round cbc tx0 = true := by
            unfold confirmedNow
            rw [hr]
            exact decide_eq_true hd
          rw [hcn]
          simp only [if_true]
          rw [List.map_cons, ih c hrest]
      · rw [if_neg hd] at hok
        rw [List.filter_cons, ih confirmed hok]
        have hcn : confirmedNow round cbc tx0 = false := by
          unfold confirmedNow
          rw [hr]
          exact decide_eq_false hd
        rw [hcn]
        simp

/-- Membership among the promoted identifiers, via the promotion test. -/
theorem mem_keys_iff (round : Round) (cbc : Int) (watch : List TxId)
    (confirmed : List (TxId × Receipt))
    (hok : processRound round cbc watch = .ok confirmed) (tx : TxId) :
    tx ∈ confirmed.map Prod.fst ↔ tx ∈ watch ∧ confirmedNow round cbc tx = true := by
  rw [processRound_keys round cbc watch confirmed hok, List.mem_filter]

/-- The identifiers left in the watch set after a round are the watched
identifiers failing the promotion test. -/
theorem residual_filter_eq (round : Round) (cbc : Int) (watch : List TxId)
    (confirmed : List (TxId × Receipt))
    (hok : processRound round cbc watch = .ok confirmed) :
    (watch.filter fun tx => decide (tx ∉ confirmed.map Prod.fst)) =
      watch.filter fun tx => !confirmedNow round cbc tx := by
  refine List.filter_congr ?_
  intro tx hmem
  rw [decide_not]
  rcases h : confirmedNow round cbc tx with _ | _
  · have : tx ∉ confirmed.map Prod.fst := by
      rw [mem_keys_iff round cbc watch confirmed hok tx]
      rintro ⟨-, hc⟩
      rw [h] at hc
      cases hc
    simp [this]
  · have : tx ∈ confirmed.map Prod.fst :=
      (mem_keys_iff round cbc watch confirmed hok tx).mpr ⟨hmem, h⟩
    simp [this]

/-- The promoted identifiers and the residual watch set together are a
permutation of the round's watch set: nothing is dropped, nothing is
duplicated. -/
theorem keys_residual_perm (round : Round) (cbc : Int) (watch : List TxId)
    (confirmed : List (TxId × Receipt))
    (hok : processRound round cbc watch = .ok confirmed) :
    List.Perm
      (confirmed.map Prod.fst ++
        watch.filter fun tx => decide (tx ∉ confirmed.map Prod.fst))
      watch := by
  rw [residual_filter_eq round cbc watch confirmed hok,
    processRound_keys round cbc watch confirmed hok]
  exact List.filter_append_perm _ watch

/-! ## Unfolding lemmas for the poll loop -/

theorem waitLoop_zero (rounds : Nat → Round) (startedAt cbc maxTimeout : Int)
    (i : Nat) (watch : List TxId) (received : List (TxId × Receipt)) :
    waitLoop rounds startedAt cbc maxTimeout 0 i watch received =
      if watch.isEmpty then (.ok received, 0) else (.outOfFuel, 0) := by
  conv_lhs => simp only [waitLoop]

theorem waitLoop_succ_empty (rounds : Nat → Round)
    (startedAt cbc maxTimeout : Int) (fuel i : Nat) (watch : List TxId)
    (received : List (TxId × Receipt)) (h : watch.isEmpty = true) :
    waitLoop rounds startedAt cbc maxTimeout (fuel + 1) i watch received =
      (.ok received, 0) := by
  conv_lhs => simp only [waitLoop]
  rw [if_pos h]

/-- An empty watch set returns the result map at once, at any fuel. -/
theorem waitLoop_empty (rounds : Nat → Round) (startedAt cbc maxTimeout : Int)
    (fuel i : Nat) (watch : List TxId) (received : List (TxId × Receipt))
    (h : watch.isEmpty = true) :
    waitLoop rounds startedAt cbc maxTimeout fuel i watch received =
      (.ok received, 0) := by
  cases fuel with
  | zero => rw [waitLoop_zero, if_pos h]
  | succ fuel => exact waitLoop_succ_empty rounds startedAt cbc maxTimeout fuel i watch received h

theorem waitLoop_succ_portError (rounds : Nat → Round)
    (startedAt cbc maxTimeout : Int) (fuel i : Nat) (watch : List TxId)
    (received : List (TxId × Receipt)) (hne : watch.isEmpty = false)
    (herr : processRound (rounds i) cbc watch = .error ()) :
    waitLoop rounds startedAt cbc maxTimeout (fuel + 1) i watch received =
      (.err .portUnavailable, 0) := by
  conv_lhs => simp only [waitLoop]
  rw [if_neg (by simp [hne]), herr]

theorem waitLoop_succ_ok (rounds : Nat → Round)
    (startedAt cbc maxTimeout : Int) (fuel i : Nat) (watch : List TxId)
    (received confirmed : List (TxId × Receipt)) (hne : watch.isEmpty = false)
    (hok : processRound (rounds i) cbc watch = .ok confirmed) :
    waitLoop rounds startedAt cbc maxTimeout (fuel + 1) i watch received =
      (if (watch.filter fun tx => decide (tx ∉ confirmed.map Prod.fst)).isEmpty then
        waitLoop rounds startedAt cbc maxTimeout fuel (i + 1)
          (watch.filter fun tx => decide (tx ∉ confirmed.map Prod.fst))
          (received ++ confirmed)
      else if startedAt + maxTimeout < (rounds i).nowAfterSleep then
        (.err (reportTimeout (rounds i)
          (watch.filter fun tx => decide (tx ∉ confirmed.map Prod.fst))), 1)
      else
        ((waitLoop rounds startedAt cbc maxTimeout fuel (i + 1)
            (watch.filter fun tx => decide (tx ∉ confirmed.map Prod.fst))
            (received ++ confirmed)).1,
          (waitLoop rounds startedAt cbc maxTimeout fuel (i + 1)
            (watch.filter fun tx => decide (tx ∉ confirmed.map Prod.fst))
            (received ++ confirmed)).2 + 1)) := by
  conv_lhs => simp only [waitLoop]
  rw [if_neg (by simp [hne]), hok]

/-! ## Result-map lookup -/

theorem lookup_cons_self (a : TxId) (b : Receipt) (t : List (TxId × Receipt)) :
    List.lookup a ((a, b) :: t) = some b := by
  simp [List.lookup]

theorem lookup_cons_ne (tx a : TxId) (b : Receipt) (t : List (TxId × Receipt))
    (h : tx ≠ a) : List.lookup tx ((a, b) :: t) = List.lookup tx t := by
  simp only [List.lookup]
  rw [beq_eq_false_iff_ne.mpr h]

/-- Appending entries for fresh identifiers does not change the value the
result map associates to an already-present identifier. -/
theorem lookup_append_left (tx : TxId) :
    ∀ (l1 l2 : List (TxId × Receipt)), tx ∈ l1.map Prod.fst →
      (l1 ++ l2).lookup tx = l1.lookup tx := by
  intro l1
  induction l1 with
  | nil => intro l2 h; simp at h
  | cons p t ih =>
    intro l2 h
    obtain ⟨a, b⟩ := p
    rw [List.cons_append]
    by_cases he : tx = a
    · subst he
      rw [lookup_cons_self, lookup_cons_self]
    · rw [lookup_cons_ne tx a b (t ++ l2) he, lookup_cons_ne tx a b t he]
      refine ih l2 ?_
      rw [List.map_cons] at h
      rcases List.mem_cons.mp h with rfl | h'
      · exact absurd rfl he
      · exact h'

/-! ## Timeout reporting -/

/-- When every diagnostic fetch succeeds, the timeout pass raises
`ConfirmationTimedOut` carrying the whole residual watch set. -/
theorem reportTimeout_all_some (round : Round) (watch : List TxId)
    (h : ∀ tx ∈ watch, (round.getTransaction tx).isSome = true) :
    reportTimeout round watch = .confirmationTimedOut watch := by
  have hnone : watch.find? (fun tx => (round.getTransaction tx).isNone) = none := by
    rw [List.find?_eq_none]
    intro tx hmem
    have hs := h tx hmem
    cases hgt : round.getTransaction tx with
    | none => rw [hgt] at hs; simp at hs
    | some v => simp
  unfold reportTimeout
  rw [hnone]

/-- When some diagnostic fetch raises, the timeout pass propagates that error
instead of `ConfirmationTimedOut`. -/
theorem reportTimeout_diag_failure (round : Round) (watch : List TxId)
    (h : ∃ tx ∈ watch, round.getTransaction tx = none) :
    ∃ tx, reportTimeout round watch = .diagnosticError tx ∧ tx ∈ watch ∧
      round.getTransaction tx = none := by
  have hs : (watch.find? fun tx => (round.getTransaction tx).isNone).isSome := by
    rw [List.find?_isSome]
    obtain ⟨tx, hmem, hn⟩ := h
    exact ⟨tx, hmem, by rw [hn]; rfl⟩
  cases hf : watch.find? (fun tx => (round.getTransaction tx).isNone) with
  | none => rw [hf] at hs; cases hs
  | some t =>
    refine ⟨t, ?_, List.mem_of_find?_eq_some hf, ?_⟩
    · unfold reportTimeout; rw [hf]
    · have hp := List.find?_some hf
      cases hgt : round.getTransaction t with
      | none => rfl
      | some v => rw [hgt] at hp; cases hp

/-! ## Run-level lemmas for the poll loop -/

theorem isPrefix_refl_self {α : Type} (l : List α) : l <+: l :=
  ⟨[], List.append_nil l⟩

theorem isPrefix_append_self {α : Type} (l1 l2 : List α) : l1 <+: l1 ++ l2 :=
  ⟨l2, rfl⟩

/-- The result map only grows: whatever was stored when a loop state was
entered is an unchanged initial segment of any successfully returned result
map. -/
theorem waitLoop_result_monotone (rounds : Nat → Round) (startedAt cbc maxTimeout : Int) :
    ∀ (fuel i : Nat) (watch : List TxId)
      (received receipts : List (TxId × Receipt)) (s : Nat),
      waitLoop rounds startedAt cbc maxTimeout fuel i watch received = (.ok receipts, s) →
      received <+: receipts := by
  intro fuel
  induction fuel with
  | zero =>
    intro i watch received receipts s h
    rw [waitLoop_zero] at h
    by_cases hw : watch.isEmpty
    · rw [if_pos hw] at h
      simp only [Prod.mk.injEq, MonitorOutcome.ok.injEq] at h
      obtain ⟨rfl, rfl⟩ := h
      exact isPrefix_refl_self _
    · rw [if_neg hw] at h
      simp at h
  | succ fuel ih =>
    intro i watch received receipts s h
    by_cases hw : watch.isEmpty
    · rw [waitLoop_succ_empty rounds startedAt cbc maxTimeout fuel i watch received hw] at h
      simp only [Prod.mk.injEq, MonitorOutcome.ok.injEq] at h
      obtain ⟨rfl, rfl⟩ := h
      exact isPrefix_refl_self _
    · replace hw : watch.isEmpty = false := by simpa using hw
      cases hpr : processRound (rounds i) cbc watch with
      | error u =>
        cases u
        rw [waitLoop_succ_portError rounds startedAt cbc maxTimeout fuel i watch
          received hw hpr] at h
        simp at h
      | ok confirmed =>
        rw [waitLoop_succ_ok rounds startedAt cbc maxTimeout fuel i watch
          received confirmed hw hpr] at h
        by_cases hres : (watch.filter fun tx => decide (tx ∉ confirmed.map Prod.fst)).isEmpty
        · rw [if_pos hres] at h
          exact (isPrefix_append_self received confirmed).trans (ih (i + 1) _ _ _ _ h)
        · rw [if_neg hres] at h
          by_cases ht : startedAt + maxTimeout < (rounds i).nowAfterSleep
          · rw [if_pos ht] at h
            simp at h
          · rw [if_neg ht] at h
            have h1 : (waitLoop rounds startedAt cbc maxTimeout fuel (i + 1)
                (watch.filter fun tx => decide (tx ∉ confirmed.map Prod.fst))
                (received ++ confirmed)).1 = .ok receipts := congrArg Prod.fst h
            have hX : waitLoop rounds startedAt cbc maxTimeout fuel (i + 1)
                (watch.filter fun tx => decide (tx ∉ confirmed.map Prod.fst))
                (received ++ confirmed) =
                (.ok receipts,
                  (waitLoop rounds startedAt cbc maxTimeout fuel (i + 1)
                    (watch.filter fun tx => decide (tx ∉ confirmed.map Prod.fst))
                    (received ++ confirmed)).2) := by
              rw [← h1]
            exact (isPrefix_append_self received confirmed).trans (ih (i + 1) _ _ _ _ hX)

/-- The identifiers of a successfully returned result map are a permutation
of the already-stored identifiers together with the current watch set:
exactly one receipt per watched identifier, none dropped, none duplicated. -/
theorem waitLoop_ok_keys (rounds : Nat → Round) (startedAt cbc maxTimeout : Int) :
    ∀ (fuel i : Nat) (watch : List TxId)
      (received receipts : List (TxId × Receipt)) (s : Nat),
      waitLoop rounds startedAt cbc maxTimeout fuel i watch received = (.ok receipts, s) →
      List.Perm (receipts.map Prod.fst) (received.map Prod.fst ++ watch) := by
  intro fuel
  induction fuel with
  | zero =>
    intro i watch received receipts s h
    rw [waitLoop_zero] at h
    by_cases hw : watch.isEmpty
    · rw [if_pos hw] at h
      simp only [Prod.mk.injEq, MonitorOutcome.ok.injEq] at h
      obtain ⟨rfl, rfl⟩ := h
      rw [List.isEmpty_iff.mp hw, List.append_nil]
    · rw [if_neg hw] at h
      simp at h
  | succ fuel ih =>
    intro i watch received receipts s h
    by_cases hw : watch.isEmpty
    · rw [waitLoop_succ_empty rounds startedAt cbc maxTimeout fuel i watch received hw] at h
      simp only [Prod.mk.injEq, MonitorOutcome.ok.injEq] at h
      obtain ⟨rfl, rfl⟩ := h
      rw [List.isEmpty_iff.mp hw, List.append_nil]
    · replace hw : watch.isEmpty = false := by simpa using hw
      cases hpr : processRound (rounds i) cbc watch with
      | error u =>
        cases u
        rw [waitLoop_succ_portError rounds startedAt cbc maxTimeout fuel i watch
          received hw hpr] at h
        simp at h
      | ok confirmed =>
        rw [waitLoop_succ_ok rounds startedAt cbc maxTimeout fuel i watch
          received confirmed hw hpr] at h
        have step : ∀ s2,
            waitLoop rounds startedAt cbc maxTimeout fuel (i + 1)
              (watch.filter fun tx => decide (tx ∉ confirmed.map Prod.fst))
              (received ++ confirmed) = (.ok receipts, s2) →
            List.Perm (receipts.map Prod.fst) (received.map Prod.fst ++ watch) := by
          intro s2 h2
          have hperm := ih (i + 1) _ _ _ _ h2
          rw [List.map_append] at hperm
          rw [List.append_assoc] at hperm
          refine hperm.trans (List.Perm.append_left _ ?_)
          exact keys_residual_perm (rounds i) cbc watch confirmed hpr
        by_cases hres : (watch.filter fun tx => decide (tx ∉ confirmed.map Prod.fst)).isEmpty
        · rw [if_pos hres] at h
          exact step s h
        · rw [if_neg hres] at h
          by_cases ht : startedAt + maxTimeout < (rounds i).nowAfterSleep
          · rw [if_pos ht] at h
            simp at h
          · rw [if_neg ht] at h
            have h1 : (waitLoop rounds startedAt cbc maxTimeout fuel (i + 1)
                (watch.filter fun tx => decide (tx ∉ confirmed.map Prod.fst))
                (received ++ confirmed)).1 = .ok receipts := congrArg Prod.fst h
            have hX : waitLoop rounds startedAt cbc maxTimeout fuel (i + 1)
                (watch.filter fun tx => decide (tx ∉ confirmed.map Prod.fst))
                (received ++ confirmed) =
                (.ok receipts,
                  (waitLoop rounds startedAt cbc maxTimeout fuel (i + 1)
                    (watch.filter fun tx => decide (tx ∉ confirmed.map Prod.fst))
                    (received ++ confirmed)).2) := by
              rw [← h1]
            exact step _ hX

/-! ## Broadcast loop and the confirm-ok scan -/

/-- Running the broadcast loop on a block of signed transactions followed by
an invalid element aborts with the assertion failure, carrying exactly the
hashes of the signed block in submission order. -/
theorem broadcastTxs_signed_then_invalid (env : Web3Env) :
    ∀ (pre : List SignedTx) (post : List TxItem) (acc : List TxId),
      broadcastTxs env (pre.map TxItem.signed ++ TxItem.invalid :: post) acc =
        .assertionFailed
          (acc ++ pre.map fun s => env.sendRawTransaction s.rawTransaction) := by
  intro pre
  induction pre with
  | nil =>
    intro post acc
    simp [broadcastTxs]
  | cons s t ih =>
    intro post acc
    rw [List.map_cons, List.cons_append]
    rw [show broadcastTxs env
        (TxItem.signed s :: (t.map TxItem.signed ++ TxItem.invalid :: post)) acc =
        broadcastTxs env (t.map TxItem.signed ++ TxItem.invalid :: post)
          (acc ++ [env.sendRawTransaction s.rawTransaction]) from rfl]
    rw [ih post (acc ++ [env.sendRawTransaction s.rawTransaction])]
    rw [List.append_assoc, List.map_cons, List.singleton_append]

/-- Broadcasting a list of genuinely signed transactions succeeds and returns
their hashes in submission order. -/
theorem broadcastTxs_all_signed (env : Web3Env) :
    ∀ (items : List SignedTx) (acc : List TxId),
      broadcastTxs env (items.map TxItem.signed) acc =
        .ok (acc ++ items.map fun s => env.sendRawTransaction s.rawTransaction) := by
  intro items
  induction items with
  | nil =>
    intro acc
    simp [broadcastTxs]
  | cons s t ih =>
    intro acc
    rw [List.map_cons]
    rw [show broadcastTxs env (TxItem.signed s :: t.map TxItem.signed) acc =
        broadcastTxs env (t.map TxItem.signed)
          (acc ++ [env.sendRawTransaction s.rawTransaction]) from rfl]
    rw [ih (acc ++ [env.sendRawTransaction s.rawTransaction])]
    rw [List.append_assoc, List.map_cons, List.singleton_append]

/-- The confirm-ok scan finds nothing exactly when every receipt reports
status 1. -/
theorem firstFailedReceipt_eq_none_iff :
    ∀ l : List (TxId × Receipt),
      firstFailedReceipt l = none ↔ ∀ p ∈ l, p.2.status = 1 := by
  intro l
  induction l with
  | nil => simp [firstFailedReceipt]
  | cons p rest ih =>
    obtain ⟨tx, r⟩ := p
    by_cases hs : r.status ≠ 1
    · rw [show firstFailedReceipt ((tx, r) :: rest) = some (tx, r) by
        unfold firstFailedReceipt; rw [if_pos hs]]
      constructor
      · intro h; cases h
      · intro h
        exact absurd (h (tx, r) (List.mem_cons_self _ _)) hs
    · rw [show firstFailedReceipt ((tx, r) :: rest) = firstFailedReceipt rest by
        conv_lhs => unfold firstFailedReceipt
        rw [if_neg hs]]
      rw [ih]
      constructor
      · intro h p hp
        rcases List.mem_cons.mp hp with rfl | hp'
        · simpa using hs
        · exact h p hp'
      · intro h p hp
        exact h p (List.mem_cons_of_mem _ hp)

/-- What the confirm-ok scan finds is a genuinely failing receipt of the
result map. -/
theorem firstFailedReceipt_eq_some :
    ∀ (l : List (TxId × Receipt)) (tx : TxId) (r : Receipt),
      firstFailedReceipt l = some (tx, r) → (tx, r) ∈ l ∧ r.status ≠ 1 := by
  intro l
  induction l with
  | nil => intro tx r h; cases h
  | cons p rest ih =>
    intro tx r h
    obtain ⟨tx0, r0⟩ := p
    by_cases hs : r0.status ≠ 1
    · rw [show firstFailedReceipt ((tx0, r0) :: rest) = some (tx0, r0) by
        unfold firstFailedReceipt; rw [if_pos hs]] at h
      obtain ⟨rfl, rfl⟩ : tx0 = tx ∧ r0 = r := by
        have := Option.some.injEq (tx0, r0) (tx, r) ▸ h
        exact Prod.mk.injEq .. ▸ this
      exact ⟨List.mem_cons_self _ _, hs⟩
    · rw [show firstFailedReceipt ((tx0, r0) :: rest) = firstFailedReceipt rest by
        conv_lhs => unfold firstFailedReceipt
        rw [if_neg hs]] at h
      obtain ⟨hmem, hst⟩ := ih tx r h
      exact ⟨List.mem_cons_of_mem _ hmem, hst⟩

/-! ## Claims -/

/-- C1: an identifier whose receipt reports inclusion at height
`r.blockNumber` is promoted from the watch set to the result map in a round
exactly when the chain head the port reports satisfies
`head - blockNumber ≥ confirmationBlockCount`; in particular it is never
promoted while `head < blockNumber + count`, and with count 0 it is promoted
in the first round that returns a receipt (the head being at or past the
inclusion height). -/
theorem confirmation_depth_enforced
    (round : Round) (cbc : Int) (watch : List TxId)
    (confirmed : List (TxId × Receipt)) (tx : TxId) (r : Receipt)
    (hmem : tx ∈ watch)
    (hr : round.getReceipt tx = .found r)
    (hok : processRound round cbc watch = .ok confirmed) :
    ((tx, r) ∈ confirmed ↔ cbc ≤ round.blockNumber tx - r.blockNumber) ∧
    (tx ∈ confirmed.map Prod.fst ↔ cbc ≤ round.blockNumber tx - r.blockNumber) ∧
    (tx ∈ (watch.filter fun t => decide (t ∉ confirmed.map Prod.fst)) ↔
      round.blockNumber tx - r.blockNumber < cbc) ∧
    (round.blockNumber tx < r.blockNumber + cbc → tx ∉ confirmed.map Prod.fst) ∧
    (cbc = 0 → r.blockNumber ≤ round.blockNumber tx → (tx, r) ∈ confirmed) := by
  have hcn : confirmedNow round cbc tx =
      decide (cbc ≤ round.blockNumber tx - r.blockNumber) := by
    unfold confirmedNow
    rw [hr]
  have h1 : (tx, r) ∈ confirmed ↔ cbc ≤ round.blockNumber tx - r.blockNumber := by
    rw [processRound_mem round cbc watch confirmed hok tx r]
    constructor
    · rintro ⟨-, -, h3⟩
      exact h3
    · intro h3
      exact ⟨hmem, hr, h3⟩
  have h2 : tx ∈ confirmed.map Prod.fst ↔
      cbc ≤ round.blockNumber tx - r.blockNumber := by
    rw [mem_keys_iff round cbc watch confirmed hok tx, hcn]
    constructor
    · rintro ⟨-, hd⟩
      exact of_decide_eq_true hd
    · intro hd
      exact ⟨hmem, decide_eq_true hd⟩
  refine ⟨h1, h2, ?_, ?_, ?_⟩
  · rw [List.mem_filter]
    constructor
    · rintro ⟨-, hd⟩
      have hnk : tx ∉ confirmed.map Prod.fst := of_decide_eq_true hd
      by_contra hlt
      push_neg at hlt
      exact hnk (h2.mpr hlt)
    · intro hlt
      refine ⟨hmem, decide_eq_true ?_⟩
      intro hk
      have := h2.mp hk
      omega
  · intro hlt hk
    have := h2.mp hk
    omega
  · intro h0 hle
    refine h1.mpr ?_
    omega

/-- C1 witness: a receipt at height 5 with the head reported at 7 and
`confirmationBlockCount = 2` is promoted. -/
theorem confirmation_depth_enforced_witness :
    (([1], Receipt.mk 5 1) ∈
      ([(([1] : TxId), Receipt.mk 5 1)] : List (TxId × Receipt))) ↔
      (2 : Int) ≤ 7 - 5 :=
  (confirmation_depth_enforced
    ⟨fun _ => .found ⟨5, 1⟩, fun _ => 7, 0, fun _ => none⟩ 2 [[1]]
    [([1], ⟨5, 1⟩)] [1] ⟨5, 1⟩ (by decide) rfl rfl).1

/-- C5: a `TransactionNotFound` answer never promotes, drops or fails an
identifier: it stays in the watch set for the next round; a round's pass
aborts only on a genuine port failure distinct from "not found". -/
theorem not_found_is_not_an_error
    (round : Round) (cbc : Int) (watch : List TxId)
    (confirmed : List (TxId × Receipt)) (tx : TxId)
    (hmem : tx ∈ watch)
    (hnf : round.getReceipt tx = .notFound)
    (hok : processRound round cbc watch = .ok confirmed) :
    tx ∉ confirmed.map Prod.fst ∧
    tx ∈ (watch.filter fun t => decide (t ∉ confirmed.map Prod.fst)) ∧
    (∀ watch2 : List TxId, processRound round cbc watch2 = .error () →
      ∃ t ∈ watch2, round.getReceipt t = .portError) := by
  have hcn : confirmedNow round cbc tx = false := by
    unfold confirmedNow
    rw [hnf]
  have h1 : tx ∉ confirmed.map Prod.fst := by
    rw [mem_keys_iff round cbc watch confirmed hok tx, hcn]
    rintro ⟨-, hc⟩
    cases hc
  refine ⟨h1, ?_, ?_⟩
  · rw [List.mem_filter]
    exact ⟨hmem, decide_eq_true h1⟩
  · intro watch2 herr
    exact (processRound_error_iff round cbc watch2).mp herr

/-- C5 witness: one watched identifier answered "not found" stays watched. -/
theorem not_found_is_not_an_error_witness :
    ([2] : TxId) ∉ ([] : List (TxId × Receipt)).map Prod.fst ∧
    ([2] : TxId) ∈ ([[2]] : List TxId).filter
      (fun t => decide (t ∉ ([] : List (TxId × Receipt)).map Prod.fst)) :=
  ⟨(not_found_is_not_an_error
      ⟨fun _ => .notFound, fun _ => 0, 0, fun _ => none⟩ 0 [[2]] [] [2]
      (by decide) rfl rfl).1,
    (not_found_is_not_an_error
      ⟨fun _ => .notFound, fun _ => 0, 0, fun _ => none⟩ 0 [[2]] [] [2]
      (by decide) rfl rfl).2.1⟩

/-- C6: a round whose promotions empty the watch set returns the result map
with zero sleeps — so it never raises `ConfirmationTimedOut` even when the
round ran past the deadline (no hypothesis constrains the clock). -/
theorem completing_round_returns_without_sleep
    (rounds : Nat → Round) (startedAt cbc maxTimeout : Int) (fuel i : Nat)
    (watch : List TxId) (received confirmed : List (TxId × Receipt))
    (hok : processRound (rounds i) cbc watch = .ok confirmed)
    (hres : (watch.filter fun tx => decide (tx ∉ confirmed.map Prod.fst)).isEmpty = true) :
    waitLoop rounds startedAt cbc maxTimeout (fuel + 1) i watch received =
      (.ok (received ++ confirmed), 0) := by
  by_cases hw : watch.isEmpty
  · rw [waitLoop_succ_empty rounds startedAt cbc maxTimeout fuel i watch received hw]
    rw [List.isEmpty_iff.mp hw, processRound_nil] at hok
    cases hok
    rw [List.append_nil]
  · replace hw : watch.isEmpty = false := by simpa using hw
    rw [waitLoop_succ_ok rounds startedAt cbc maxTimeout fuel i watch received
      confirmed hw hok]
    rw [if_pos hres]
    exact waitLoop_empty rounds startedAt cbc maxTimeout fuel (i + 1) _ _ hres

/-- C6 witness: both identifiers confirmed in round one with the clock
already far past the deadline; the call still returns both receipts with
zero sleeps. -/
theorem completing_round_returns_without_sleep_witness :
    waitLoop (fun _ => ⟨fun _ => .found ⟨3, 1⟩, fun _ => 3, 1000, fun _ => none⟩)
      0 0 10 4 0 [[1], [2]] [] =
      (.ok ([] ++ [([1], ⟨3, 1⟩), ([2], ⟨3, 1⟩)]), 0) := by
  have h := completing_round_returns_without_sleep
    (fun _ => ⟨fun _ => .found ⟨3, 1⟩, fun _ => 3, 1000, fun _ => none⟩)
    0 0 10 3 0 [[1], [2]] [] [([1], ⟨3, 1⟩), ([2], ⟨3, 1⟩)] rfl rfl
  exact h

/-- C2 counterexample: the deadline is exceeded with a non-empty watch set,
yet the call fails with the propagated diagnostic-fetch error, not with
`ConfirmationTimedOut`: the unguarded `web3.eth.get_transaction` raises
first. -/
theorem timeout_masked_by_diagnostic_failure :
    (wait_transactions_to_complete
      ⟨1, 0, fun _ => ⟨fun _ => .notFound, fun _ => 0, 100, fun _ => none⟩,
        fun _ => [0]⟩ [[1]] 0 10 5).1 = .err (.diagnosticError [1]) ∧
    (wait_transactions_to_complete
      ⟨1, 0, fun _ => ⟨fun _ => .notFound, fun _ => 0, 100, fun _ => none⟩,
        fun _ => [0]⟩ [[1]] 0 10 5).1 ≠ .err (.confirmationTimedOut [[1]]) := by
  constructor
  · rfl
  · decide

/-- C2 (amended): when the deadline is exceeded with a non-empty residual
watch set and every best-effort diagnostic fetch for the residual identifiers
succeeds, the call fails with `ConfirmationTimedOut` carrying exactly the
residual watch set: every still-watched identifier is in the carried set or
was promoted this round, and no promoted identifier is carried. -/
theorem timeout_reports_residual_watch_set
    (rounds : Nat → Round) (startedAt cbc maxTimeout : Int) (fuel i : Nat)
    (watch : List TxId) (received confirmed : List (TxId × Receipt))
    (hne : watch.isEmpty = false)
    (hok : processRound (rounds i) cbc watch = .ok confirmed)
    (hres : (watch.filter fun tx => decide (tx ∉ confirmed.map Prod.fst)).isEmpty = false)
    (htime : startedAt + maxTimeout < (rounds i).nowAfterSleep)
    (hdiag : ∀ tx ∈ watch.filter fun tx => decide (tx ∉ confirmed.map Prod.fst),
      ((rounds i).getTransaction tx).isSome = true)
    (hdisj : ∀ tx ∈ watch, tx ∉ received.map Prod.fst) :
    waitLoop rounds startedAt cbc maxTimeout (fuel + 1) i watch received =
      (.err (.confirmationTimedOut
        (watch.filter fun tx => decide (tx ∉ confirmed.map Prod.fst))), 1) ∧
    (∀ tx ∈ watch,
      tx ∈ (watch.filter fun tx => decide (tx ∉ confirmed.map Prod.fst)) ∨
      tx ∈ confirmed.map Prod.fst) ∧
    (∀ tx ∈ (watch.filter fun tx => decide (tx ∉ confirmed.map Prod.fst)),
      tx ∉ (received ++ confirmed).map Prod.fst) := by
  refine ⟨?_, ?_, ?_⟩
  · rw [waitLoop_succ_ok rounds startedAt cbc maxTimeout fuel i watch received
      confirmed hne hok]
    rw [if_neg (by rw [hres]; exact Bool.false_ne_true), if_pos htime]
    rw [reportTimeout_all_some (rounds i) _ hdiag]
  · intro tx hmem
    by_cases hk : tx ∈ confirmed.map Prod.fst
    · exact Or.inr hk
    · exact Or.inl (List.mem_filter.mpr ⟨hmem, decide_eq_true hk⟩)
  · intro tx hmemf
    rw [List.map_append, List.mem_append]
    rintro (h | h)
    · exact hdisj tx (List.mem_of_mem_filter hmemf) h
    · exact of_decide_eq_true (List.mem_filter.mp hmemf).2 h

/-- C2 witness: one of two identifiers confirms in round one, the other is
still unseen when the deadline passes; the timeout error carries exactly the
unseen identifier. -/
theorem timeout_reports_residual_watch_set_witness :
    waitLoop
      (fun _ => ⟨fun tx => if tx = [1] then .found ⟨0, 1⟩ else .notFound,
        fun _ => 0, 100, fun _ => some 7⟩) 0 0 10 3 0 [[1], [2]] [] =
      (.err (.confirmationTimedOut
        (([[1], [2]] : List TxId).filter fun tx =>
          decide (tx ∉ ([([1], ⟨0, 1⟩)] : List (TxId × Receipt)).map Prod.fst))), 1) :=
  (timeout_reports_residual_watch_set
    (fun _ => ⟨fun tx => if tx = [1] then .found ⟨0, 1⟩ else .notFound,
      fun _ => 0, 100, fun _ => some 7⟩) 0 0 10 2 0 [[1], [2]] []
    [([1], ⟨0, 1⟩)] rfl rfl (by decide) (by decide) (by decide)
    (by decide)).1

/-- C3 counterexample: the deadline is exceeded with a non-empty watch set
and the diagnostic fetch raises; the diagnostic error replaces
`ConfirmationTimedOut` rather than being swallowed. -/
theorem diagnostic_error_replaces_timeout :
    (wait_transactions_to_complete
      ⟨1, 0, fun _ => ⟨fun _ => .notFound, fun _ => 0, 50, fun _ => none⟩,
        fun _ => [0]⟩ [[2]] 0 7 4).1 = .err (.diagnosticError [2]) ∧
    (wait_transactions_to_complete
      ⟨1, 0, fun _ => ⟨fun _ => .notFound, fun _ => 0, 50, fun _ => none⟩,
        fun _ => [0]⟩ [[2]] 0 7 4).1 ≠ .err (.confirmationTimedOut [[2]]) := by
  constructor
  · rfl
  · decide

/-- C3 (amended): diagnostic-fetch failures during timeout reporting are NOT
swallowed: if some residual identifier's diagnostic fetch raises, that error
propagates in place of `ConfirmationTimedOut`; `ConfirmationTimedOut`
surfaces exactly when every diagnostic fetch succeeds. -/
theorem diagnostic_failure_not_swallowed
    (rounds : Nat → Round) (startedAt cbc maxTimeout : Int) (fuel i : Nat)
    (watch : List TxId) (received confirmed : List (TxId × Receipt))
    (hne : watch.isEmpty = false)
    (hok : processRound (rounds i) cbc watch = .ok confirmed)
    (hres : (watch.filter fun tx => decide (tx ∉ confirmed.map Prod.fst)).isEmpty = false)
    (htime : startedAt + maxTimeout < (rounds i).nowAfterSleep) :
    ((∃ tx ∈ watch.filter fun tx => decide (tx ∉ confirmed.map Prod.fst),
        (rounds i).getTransaction tx = none) →
      ∃ t, waitLoop rounds startedAt cbc maxTimeout (fuel + 1) i watch received =
          (.err (.diagnosticError t), 1) ∧
        t ∈ (watch.filter fun tx => decide (tx ∉ confirmed.map Prod.fst)) ∧
        (rounds i).getTransaction t = none) ∧
    ((∀ tx ∈ watch.filter fun tx => decide (tx ∉ confirmed.map Prod.fst),
        ((rounds i).getTransaction tx).isSome = true) →
      waitLoop rounds startedAt cbc maxTimeout (fuel + 1) i watch received =
        (.err (.confirmationTimedOut
          (watch.filter fun tx => decide (tx ∉ confirmed.map Prod.fst))), 1)) := by
  have hstep : waitLoop rounds startedAt cbc maxTimeout (fuel + 1) i watch received =
      (.err (reportTimeout (rounds i)
        (watch.filter fun tx => decide (tx ∉ confirmed.map Prod.fst))), 1) := by
    rw [waitLoop_succ_ok rounds startedAt cbc maxTimeout fuel i watch received
      confirmed hne hok]
    rw [if_neg (by rw [hres]; exact Bool.false_ne_true), if_pos htime]
  constructor
  · intro hfail
    obtain ⟨t, hrep, hmem, hnone⟩ :=
      reportTimeout_diag_failure (rounds i) _ hfail
    refine ⟨t, ?_, hmem, hnone⟩
    rw [hstep, hrep]
  · intro hdiag
    rw [hstep, reportTimeout_all_some (rounds i) _ hdiag]

/-- C3 witness: with a raising diagnostic fetch the run fails with the
diagnostic error; with a succeeding one it fails with
`ConfirmationTimedOut`. -/
theorem diagnostic_failure_not_swallowed_witness :
    waitLoop (fun _ => ⟨fun _ => .notFound, fun _ => 0, 50, fun _ => some 4⟩)
      0 0 7 3 0 [[3]] [] =
      (.err (.confirmationTimedOut
        (([[3]] : List TxId).filter fun tx =>
          decide (tx ∉ ([] : List (TxId × Receipt)).map Prod.fst))), 1) :=
  (diagnostic_failure_not_swallowed
    (fun _ => ⟨fun _ => .notFound, fun _ => 0, 50, fun _ => some 4⟩)
    0 0 7 2 0 [[3]] [] [] rfl rfl rfl (by decide)).2 (by decide)

/-- C4 counterexample: two ports identical except for the chain identity
(61 versus 1), with `confirmationBlockCount = 1`: the monitor inspects the
chain identity and enforces the constraint itself, failing with the
assertion error on identity 61 while succeeding on identity 1. -/
theorem monitor_inspects_chain_identity :
    wait_transactions_to_complete
      ⟨61, 0, fun _ => ⟨fun _ => .found ⟨0, 1⟩, fun _ => 5, 0, fun _ => some 0⟩,
        fun _ => [0]⟩ [[1]] 1 100 3 ≠
    wait_transactions_to_complete
      ⟨1, 0, fun _ => ⟨fun _ => .found ⟨0, 1⟩, fun _ => 5, 0, fun _ => some 0⟩,
        fun _ => [0]⟩ [[1]] 1 100 3 ∧
    (wait_transactions_to_complete
      ⟨61, 0, fun _ => ⟨fun _ => .found ⟨0, 1⟩, fun _ => 5, 0, fun _ => some 0⟩,
        fun _ => [0]⟩ [[1]] 1 100 3).1 = .err .assertionError := by
  constructor
  · decide
  · rfl

/-- C4 (amended): apart from the chain-identity-61 guard — which the monitor
does enforce itself — its observable behaviour is identical for two ports
differing only in the chain identity they report: whenever the two
identities agree on being 61 (in particular whenever neither is 61), or
whenever `confirmationBlockCount = 0` (so the guard can fire on neither
port), outcomes coincide. -/
theorem chain_identity_independence_modulo_tester_guard
    (env : Web3Env) (c1 c2 : Int) (txs : List TxId)
    (cbc maxTimeout : Int) (fuel : Nat)
    (h : (c1 = 61 ↔ c2 = 61) ∨ cbc = 0) :
    wait_transactions_to_complete
        ⟨c1, env.startedAt, env.rounds, env.sendRawTransaction⟩ txs cbc
        maxTimeout fuel =
      wait_transactions_to_complete
        ⟨c2, env.startedAt, env.rounds, env.sendRawTransaction⟩ txs cbc
        maxTimeout fuel := by
  unfold wait_transactions_to_complete
  by_cases h1 : c1 = 61 ∧ cbc ≠ 0
  · rcases h with hiff | h0
    · rw [if_pos h1, if_pos ⟨hiff.mp h1.1, h1.2⟩]
    · exact absurd h0 h1.2
  · rw [if_neg h1, if_neg ?_]
    rintro ⟨hc2, hcbc⟩
    rcases h with hiff | h0
    · exact h1 ⟨hiff.mpr hc2, hcbc⟩
    · exact hcbc h0

/-- C4 witness: with `confirmationBlockCount = 0` even chain identities 61
and 1 give identical outcomes — the guard can fire on neither port. -/
theorem chain_identity_independence_witness :
    wait_transactions_to_complete
      ⟨61, 0, fun _ => ⟨fun _ => .found ⟨0, 1⟩, fun _ => 5, 0, fun _ => some 0⟩,
        fun _ => [0]⟩ [[1]] 0 100 3 =
    wait_transactions_to_complete
      ⟨1, 0, fun _ => ⟨fun _ => .found ⟨0, 1⟩, fun _ => 5, 0, fun _ => some 0⟩,
        fun _ => [0]⟩ [[1]] 0 100 3 :=
  chain_identity_independence_modulo_tester_guard
    ⟨0, 0, fun _ => ⟨fun _ => .found ⟨0, 1⟩, fun _ => 5, 0, fun _ => some 0⟩,
      fun _ => [0]⟩ 61 1 [[1]] 0 100 3 (Or.inr rfl)

/-- C7: with `confirm_ok` set, Broadcast-and-Confirm fails with the
transaction-failure error exactly when some receipt of the monitor's result
map reports a status other than 1, and the error names a failing transaction
and its receipt from the map; with no failing receipt, or with `confirm_ok`
unset, the result map is returned unchanged. -/
theorem confirm_ok_failure_detection
    (env : Web3Env) (txs : List TxItem) (confirm_ok : Bool)
    (cbc maxTimeout : Int) (fuel : Nat) (hashes : List TxId)
    (receipts : List (TxId × Receipt)) (s : Nat)
    (hb : broadcastTxs env txs [] = .ok hashes)
    (hm : wait_transactions_to_complete env hashes cbc maxTimeout fuel =
      (.ok receipts, s)) :
    (broadcast_and_wait_transactions_to_complete env txs confirm_ok cbc
        maxTimeout fuel = .ok receipts ↔
      (confirm_ok = false ∨ ∀ p ∈ receipts, p.2.status = 1)) ∧
    (confirm_ok = true → (∃ p ∈ receipts, p.2.status ≠ 1) →
      ∃ tx r, broadcast_and_wait_transactions_to_complete env txs confirm_ok cbc
          maxTimeout fuel = .transactionFailed tx r ∧
        (tx, r) ∈ receipts ∧ r.status ≠ 1) := by
  have hred : broadcast_and_wait_transactions_to_complete env txs confirm_ok cbc
      maxTimeout fuel =
      (if confirm_ok then
        match firstFailedReceipt receipts with
        | some (tx, r) => .transactionFailed tx r
        | none => .ok receipts
      else .ok receipts) := by
    unfold broadcast_and_wait_transactions_to_complete
    rw [hb]
    dsimp only
    rw [hm]
  cases confirm_ok with
  | false =>
    rw [hred, if_neg (by simp)]
    refine ⟨iff_of_true rfl (Or.inl rfl), ?_⟩
    intro h; cases h
  | true =>
    rw [hred, if_pos rfl]
    cases hff : firstFailedReceipt receipts with
    | none =>
      refine ⟨iff_of_true rfl
        (Or.inr ((firstFailedReceipt_eq_none_iff receipts).mp hff)), ?_⟩
      intro _ hex
      obtain ⟨p, hp, hst⟩ := hex
      exact absurd ((firstFailedReceipt_eq_none_iff receipts).mp hff p hp) hst
    | some q =>
      obtain ⟨tx, r⟩ := q
      obtain ⟨hmem, hst⟩ := firstFailedReceipt_eq_some receipts tx r hff
      constructor
      · constructor
        · intro h; cases h
        · rintro (h | h)
          · cases h
          · exact absurd (h (tx, r) hmem) hst
      · intro _ _
        exact ⟨tx, r, rfl, hmem, hst⟩

/-- C7 witness: two broadcast transactions, the second receipt reports
status 0; the call fails with the transaction-failure error naming it. -/
theorem confirm_ok_failure_detection_witness :
    broadcast_and_wait_transactions_to_complete
      ⟨1, 0,
        fun _ => ⟨fun tx => if tx = [10] then .found ⟨0, 1⟩ else .found ⟨0, 0⟩,
          fun _ => 0, 0, fun _ => some 0⟩,
        fun raw => [raw.headD 0]⟩
      [.signed ⟨[10]⟩, .signed ⟨[20]⟩] true 0 100 3 ≠
      .ok [([10], ⟨0, 1⟩), ([20], ⟨0, 0⟩)] := by
  intro hc
  rcases ((confirm_ok_failure_detection
    ⟨1, 0,
      fun _ => ⟨fun tx => if tx = [10] then .found ⟨0, 1⟩ else .found ⟨0, 0⟩,
        fun _ => 0, 0, fun _ => some 0⟩,
      fun raw => [raw.headD 0]⟩
    [.signed ⟨[10]⟩, .signed ⟨[20]⟩] true 0 100 3 [[10], [20]]
    [([10], ⟨0, 1⟩), ([20], ⟨0, 0⟩)] 0 rfl rfl).1.mp hc) with h | h
  · cases h
  · exact absurd (h ([20], ⟨0, 0⟩) (by decide)) (by decide)

/-- C8: at every round boundary the result map and the watch set stay
disjoint, the watch set only shrinks (as a sublist, so promoted identifiers
are never queried in any later round), the result map only grows by
appending this round's promotions, the value stored for an already-promoted
identifier is never overwritten, and the watch set stays duplicate-free. -/
theorem watch_result_disjoint_monotone
    (round : Round) (cbc : Int) (watch : List TxId)
    (received confirmed : List (TxId × Receipt))
    (hnd : watch.Nodup)
    (hndr : (received.map Prod.fst).Nodup)
    (hdisj : ∀ tx ∈ watch, tx ∉ received.map Prod.fst)
    (hok : processRound round cbc watch = .ok confirmed) :
    (∀ tx ∈ (watch.filter fun t => decide (t ∉ confirmed.map Prod.fst)),
      tx ∉ (received ++ confirmed).map Prod.fst) ∧
    (watch.filter fun t => decide (t ∉ confirmed.map Prod.fst)).Sublist watch ∧
    received <+: (received ++ confirmed) ∧
    (∀ tx ∈ confirmed.map Prod.fst,
      tx ∉ (watch.filter fun t => decide (t ∉ confirmed.map Prod.fst))) ∧
    (∀ tx ∈ received.map Prod.fst,
      (received ++ confirmed).lookup tx = received.lookup tx) ∧
    (watch.filter fun t => decide (t ∉ confirmed.map Prod.fst)).Nodup ∧
    (∀ tx ∈ confirmed.map Prod.fst, tx ∈ watch) ∧
    ((received ++ confirmed).map Prod.fst).Nodup := by
  have hkeys := processRound_keys round cbc watch confirmed hok
  have hsub : ∀ tx ∈ confirmed.map Prod.fst, tx ∈ watch := by
    intro tx h
    rw [hkeys] at h
    exact List.mem_of_mem_filter h
  refine ⟨?_, List.filter_sublist watch, isPrefix_append_self received confirmed,
    ?_, ?_, hnd.filter _, hsub, ?_⟩
  · intro tx hmemf
    rw [List.map_append, List.mem_append]
    rintro (h | h)
    · exact hdisj tx (List.mem_of_mem_filter hmemf) h
    · exact of_decide_eq_true (List.mem_filter.mp hmemf).2 h
  · intro tx hk hmemf
    exact of_decide_eq_true (List.mem_filter.mp hmemf).2 hk
  · intro tx hk
    exact lookup_append_left tx received confirmed hk
  · rw [List.map_append]
    refine List.Nodup.append hndr (hkeys ▸ hnd.filter _) ?_
    intro a ha hc
    exact hdisj a (hsub a hc) ha

/-- C8 witness: one of two watched identifiers is promoted while a third is
already stored; all invariants hold at the boundary. -/
theorem watch_result_disjoint_monotone_witness :
    (([[1], [2]] : List TxId).filter fun t =>
      decide (t ∉ ([([1], ⟨4, 1⟩)] : List (TxId × Receipt)).map Prod.fst)).Sublist
      [[1], [2]] ∧
    ([([9], ⟨0, 1⟩)] : List (TxId × Receipt)) <+:
      (([([9], ⟨0, 1⟩)] : List (TxId × Receipt)) ++
        ([([1], ⟨4, 1⟩)] : List (TxId × Receipt))) ∧
    (([[1], [2]] : List TxId).filter fun t =>
      decide (t ∉ ([([1], ⟨4, 1⟩)] : List (TxId × Receipt)).map Prod.fst)).Nodup ∧
    ((([([9], ⟨0, 1⟩)] : List (TxId × Receipt)) ++
      ([([1], ⟨4, 1⟩)] : List (TxId × Receipt))).map Prod.fst).Nodup :=
  ⟨(watch_result_disjoint_monotone
      ⟨fun tx => if tx = [1] then .found ⟨4, 1⟩ else .notFound, fun _ => 4, 0,
        fun _ => none⟩ 0 [[1], [2]] [([9], ⟨0, 1⟩)] [([1], ⟨4, 1⟩)]
      (by decide) (by decide) (by decide) rfl).2.1,
    (watch_result_disjoint_monotone
      ⟨fun tx => if tx = [1] then .found ⟨4, 1⟩ else .notFound, fun _ => 4, 0,
        fun _ => none⟩ 0 [[1], [2]] [([9], ⟨0, 1⟩)] [([1], ⟨4, 1⟩)]
      (by decide) (by decide) (by decide) rfl).2.2.1,
    (watch_result_disjoint_monotone
      ⟨fun tx => if tx = [1] then .found ⟨4, 1⟩ else .notFound, fun _ => 4, 0,
        fun _ => none⟩ 0 [[1], [2]] [([9], ⟨0, 1⟩)] [([1], ⟨4, 1⟩)]
      (by decide) (by decide) (by decide) rfl).2.2.2.2.2.1,
    (watch_result_disjoint_monotone
      ⟨fun tx => if tx = [1] then .found ⟨4, 1⟩ else .notFound, fun _ => 4, 0,
        fun _ => none⟩ 0 [[1], [2]] [([9], ⟨0, 1⟩)] [([1], ⟨4, 1⟩)]
      (by decide) (by decide) (by decide) rfl).2.2.2.2.2.2.2⟩

/-- C9: duplicate identifiers collapse by byte value: a monitoring call
behaves identically on an input list and on its deduplicated form, and a
successful result map carries exactly one entry per distinct input
identifier. -/
theorem duplicates_collapse
    (env : Web3Env) (txs : List TxId) (cbc maxTimeout : Int) (fuel : Nat) :
    wait_transactions_to_complete env txs cbc maxTimeout fuel =
      wait_transactions_to_complete env txs.dedup cbc maxTimeout fuel ∧
    ∀ (receipts : List (TxId × Receipt)) (s : Nat),
      wait_transactions_to_complete env txs cbc maxTimeout fuel =
        (.ok receipts, s) →
      List.Perm (receipts.map Prod.fst) txs.dedup ∧
      (receipts.map Prod.fst).Nodup := by
  constructor
  · unfold wait_transactions_to_complete
    rw [List.dedup_idem]
  · intro receipts s h
    unfold wait_transactions_to_complete at h
    by_cases hg : env.chainId = 61 ∧ cbc ≠ 0
    · rw [if_pos hg] at h
      simp at h
    · rw [if_neg hg] at h
      have hperm := waitLoop_ok_keys env.rounds env.startedAt cbc maxTimeout fuel 0
        txs.dedup [] receipts s h
      rw [List.map_nil, List.nil_append] at hperm
      exact ⟨hperm, hperm.nodup_iff.mpr (List.nodup_dedup txs)⟩

/-- C9 witness: the input `[[1], [1], [2]]` yields a result map keyed by the
two distinct identifiers. -/
theorem duplicates_collapse_witness :
    List.Perm
      (([([1], ⟨0, 1⟩), ([2], ⟨0, 1⟩)] : List (TxId × Receipt)).map Prod.fst)
      ([[1], [1], [2]] : List TxId).dedup ∧
    (([([1], ⟨0, 1⟩), ([2], ⟨0, 1⟩)] : List (TxId × Receipt)).map
      Prod.fst).Nodup :=
  (duplicates_collapse
    ⟨1, 0, fun _ => ⟨fun _ => .found ⟨0, 1⟩, fun _ => 0, 0, fun _ => none⟩,
      fun _ => [0]⟩ [[1], [1], [2]] 0 100 3).2
    [([1], ⟨0, 1⟩), ([2], ⟨0, 1⟩)] 0 rfl

/-- C10: Broadcast-and-Confirm validates elements only as it reaches them in
input order: with an invalid element after `i` signed ones, the call aborts
with the assertion error having submitted exactly those first `i`
transactions (their hashes standing — no rollback), and monitoring never
begins: the outcome does not depend on the poll rounds or the fuel. -/
theorem invalid_element_aborts_in_order
    (env : Web3Env) (pre : List SignedTx) (post : List TxItem)
    (confirm_ok : Bool) (cbc maxTimeout : Int) (fuel : Nat) :
    broadcast_and_wait_transactions_to_complete env
        (pre.map TxItem.signed ++ TxItem.invalid :: post) confirm_ok cbc
        maxTimeout fuel =
      .assertionError
        (pre.map fun s => env.sendRawTransaction s.rawTransaction) := by
  unfold broadcast_and_wait_transactions_to_complete
  rw [broadcastTxs_signed_then_invalid env pre post [], List.nil_append]

end TxMonitor
